import Mathlib

/-!
Shallow embedding of the retry/poll primitive and the EFS file-system CRUD
helpers of this repository, together with proofs of the spec claims.

Modelling conventions:
* Go `*T` pointers that are only dereferenced-or-nil become `Option T`.
* The external terraform-plugin-sdk `StateChangeConf.WaitForStateContext`
  loop (a third-party dependency, not part of this repository) is modelled
  from the spec's description as a fuel-indexed poll-until-target loop; one
  unit of fuel is one permitted `Refresh` invocation before the timeout.
* Randomness (`rand.Int63n`) is modelled by universally quantifying over the
  drawn value, constrained to the interval the generator guarantees.
* Sequences of observations of the remote API are modelled as functions
  `Nat → _` giving the outcome of the i-th call.
-/

namespace TFAws

/-- Model of `resource.RetryError`: an error value together with its
`Retryable` flag.  The Go error payload is an abstract type `ε`. -/
structure RetryError (ε : Type) where
  err : ε
  retryable : Bool
deriving DecidableEq, Repr

/-- The wait errors that can surface from the wait loop inside
`RetryConfigContext`: the error returned by its `Refresh` closure, or the
generic wait-timeout error. -/
inductive RetryWaitErr (ε : Type) where
  | refreshErr (e : ε)
  | timeout
deriving DecidableEq, Repr

/-- The error returned by `RetryConfigContext`: either an error that came
out of the retried function `f` (stored in `resultErr`), or the generic
wait-timeout error, -/
inductive GoRetErr (ε : Type) where
  | fromF (e : ε)
  | waitTimeout
deriving DecidableEq, Repr

/-- The poll loop of `RetryConfigContext`: the `Refresh` closure from the
source fused with the wait loop.  `f i` is the outcome of the i-th
invocation of the retried function (`none` = the Go `nil` success).  The
second argument is the remaining fuel, the third the current value of the
shared `resultErr` variable.  Returns the final `resultErr` together with
the wait loop's own error (`none` when the `"success"` target state was
reached).  Per the source `Refresh`: success sets `resultErr` to nil and
reports state `"success"` (the target); a retryable error stores the error
and reports the pending state `"retryableerror"`; a non-retryable error
stores the error and aborts the wait with that error. -/
def retryConfigLoop {ε : Type} (f : Nat → Option (RetryError ε)) :
    Nat → Option ε → Option ε × Option (RetryWaitErr ε)
  | 0, resultErr => (resultErr, some RetryWaitErr.timeout)
  | fuel + 1, _ =>
    match f 0 with
    | none => (none, none)
    | some rerr =>
      if rerr.retryable then
        retryConfigLoop (fun n => f (n + 1)) fuel (some rerr.err)
      else
        (some rerr.err, some (RetryWaitErr.refreshErr rerr.err))

/-- Model of `RetryConfigContext`'s return value (delay configuration is
modelled separately in `retryConfigDelays`): run the wait loop, then, as in
the source, return `waitErr` when `resultErr` is nil (the wait may have
timed out before `resultErr` was ever set) and `resultErr` otherwise, since
it is more likely to be useful.  `none` is the Go `nil` return. -/
def RetryConfigContext {ε : Type} (f : Nat → Option (RetryError ε))
    (fuel : Nat) : Option (GoRetErr ε) :=
  match retryConfigLoop f fuel none with
  | (some e, _) => some (GoRetErr.fromF e)
  | (none, none) => none
  | (none, some (RetryWaitErr.refreshErr e)) => some (GoRetErr.fromF e)
  | (none, some RetryWaitErr.timeout) => some GoRetErr.waitTimeout

/-! ## Delay configuration of `RetryConfigContext`

Go `time.Duration` values are `int64` nanosecond counts; `Milliseconds()`
divides by 10^6 truncating toward zero, which is `Int.div`. -/

/-- A Go `time.Duration` in nanoseconds. -/
def Duration := Int
deriving DecidableEq

/-- Nanoseconds in a millisecond. -/
def nsPerMs : Int := 1000000

/-- `time.Duration.Milliseconds()`: nanoseconds divided by 10^6, truncated
toward zero. -/
def durMilliseconds (d : Int) : Int := Int.tdiv d nsPerMs

/-- The timing fields of `resource.StateChangeConf` that
`RetryConfigContext` sets (all zero-initialised, as Go struct fields). -/
structure StateChangeTiming where
  delay : Int
  minTimeout : Int
  pollInterval : Int
deriving DecidableEq, Repr

/-- The delay-configuration prefix of `RetryConfigContext`: copy `delay`
when it is at least one millisecond; then, when `delayRand` is at least one
millisecond, overwrite the delay with `draw` milliseconds, where `draw`
models the result of `rand.Int63n(delayRand.Milliseconds())` (the caller
quantifies over `0 ≤ draw < delayRand.Milliseconds()`); finally copy
`minTimeout` and `pollInterval` when each is at least one millisecond. -/
def retryConfigDelays (delay delayRand minTimeout pollInterval : Int)
    (draw : Int) : StateChangeTiming :=
  let c : StateChangeTiming := ⟨0, 0, 0⟩
  let c := if durMilliseconds delay > 0 then { c with delay := delay } else c
  let c := if durMilliseconds delayRand > 0 then
    { c with delay := draw * nsPerMs } else c
  let c := if durMilliseconds minTimeout > 0 then
    { c with minTimeout := minTimeout } else c
  if durMilliseconds pollInterval > 0 then
    { c with pollInterval := pollInterval } else c

/-! ## The generic `StateChangeConf` wait loop

Modelled from the spec: the `StateChangeConf`-based wait helpers poll a
`Refresh` function for eventual-consistency state transitions until a
`Target` state is reached, continuing through `Pending` states.  The loop
itself lives in the external terraform-plugin-sdk, outside this repository;
its observable contract is: a `Refresh` error aborts the wait with that
error; a nil result with an empty `Target` means the resource is gone and
the (empty) target is reached; a nil result otherwise counts toward
`NotFoundChecks` (20 by default) consecutive misses before failing; a state
in `Target` finishes successfully; a state in `Pending` continues; any
other state aborts with an unexpected-state error; running out of time
yields a timeout error. -/

/-- One result of a `retry.StateRefreshFunc`: `(result, state, error)`. -/
structure RefreshOut (ρ ε : Type) where
  res : Option ρ
  state : String
  err : Option ε

/-- Errors the generic wait loop can return. -/
inductive WaitErr (ε : Type) where
  | refreshErr (e : ε)
  | notFound
  | unexpectedState (s : String)
  | timeout
deriving DecidableEq, Repr

/-- The fuel-indexed wait loop (see the section comment).  `refresh i` is
the i-th `Refresh` outcome; the `Nat` arguments are the consecutive
not-found counter and the remaining fuel. -/
def waitForState {ρ ε : Type} (pending target : List String)
    (notFoundChecks : Nat) :
    (Nat → RefreshOut ρ ε) → Nat → Nat → Option ρ × Option (WaitErr ε)
  | _, _, 0 => (none, some WaitErr.timeout)
  | refresh, nfTick, fuel + 1 =>
    let r := refresh 0
    match r.err with
    | some e => (r.res, some (WaitErr.refreshErr e))
    | none =>
      match r.res with
      | none =>
        if target.isEmpty then (none, none)
        else if notFoundChecks < nfTick + 1 then (none, some WaitErr.notFound)
        else waitForState pending target notFoundChecks
          (fun n => refresh (n + 1)) (nfTick + 1) fuel
      | some v =>
        if target.contains r.state then (some v, none)
        else if pending.contains r.state then
          waitForState pending target notFoundChecks
            (fun n => refresh (n + 1)) 0 fuel
        else (some v, some (WaitErr.unexpectedState r.state))

/-! ## EFS file-system wait helpers -/

/-- EFS lifecycle state names, from the AWS SDK constants used in the
source. -/
def LifeCycleStateCreating : String := "creating"

/-- "updating" -/
def LifeCycleStateUpdating : String := "updating"

/-- "available" -/
def LifeCycleStateAvailable : String := "available"

/-- "deleting" -/
def LifeCycleStateDeleting : String := "deleting"

/-- The fields of `efs.FileSystemDescription` the wait helpers consult.
Other fields are irrelevant to the polled state machine and are summarised
by `fileSystemId`. -/
structure FileSystemDescription where
  fileSystemId : String
  lifeCycleState : String
deriving DecidableEq, Repr

/-- Outcome of one `FindFileSystemByID` call: the description, a not-found
error, or another API error. -/
inductive FindResult (ε : Type) where
  | found (fs : FileSystemDescription)
  | notFound
  | apiErr (e : ε)
deriving DecidableEq, Repr

/-- `statusFileSystemLifeCycleState`: turn the i-th `FindFileSystemByID`
outcome into a refresh result — not-found becomes `(nil, "", nil)`, another
error becomes `(nil, "", err)`, and a description is returned with its
`LifeCycleState` as the state string. -/
def statusFileSystemLifeCycleState {ε : Type} (find : Nat → FindResult ε)
    (i : Nat) : RefreshOut FileSystemDescription ε :=
  match find i with
  | FindResult.notFound => ⟨none, "", none⟩
  | FindResult.apiErr e => ⟨none, "", some e⟩
  | FindResult.found fs => ⟨some fs, fs.lifeCycleState, none⟩

/-- Default `NotFoundChecks` of the external SDK wait loop. -/
def defaultNotFoundChecks : Nat := 20

/-- `waitFileSystemAvailable`: wait with Pending = {creating, updating} and
Target = {available}, refreshing via `statusFileSystemLifeCycleState`. -/
def waitFileSystemAvailable {ε : Type} (find : Nat → FindResult ε)
    (fuel : Nat) : Option FileSystemDescription × Option (WaitErr ε) :=
  waitForState [LifeCycleStateCreating, LifeCycleStateUpdating]
    [LifeCycleStateAvailable] defaultNotFoundChecks
    (statusFileSystemLifeCycleState find) 0 fuel

/-- `waitFileSystemDeleted`: wait with Pending = {available, deleting} and
an empty Target, refreshing via `statusFileSystemLifeCycleState`. -/
def waitFileSystemDeleted {ε : Type} (find : Nat → FindResult ε)
    (fuel : Nat) : Option FileSystemDescription × Option (WaitErr ε) :=
  waitForState [LifeCycleStateAvailable, LifeCycleStateDeleting]
    [] defaultNotFoundChecks
    (statusFileSystemLifeCycleState find) 0 fuel

/-! ## `resourceFileSystemCreate` / `resourceFileSystemUpdate` request
construction

Terraform's `ResourceData.GetOk` returns the attribute value together with
an `ok` flag that is true exactly when the attribute is set to a non-zero
value; when the attribute is unset, the zero value is returned.  The model
therefore stores each optional attribute as its `Get` value (zero default)
and derives `ok` as "value is non-zero".  Go `float64` values are only
copied by the source, never computed with, so their carrier is opaque. -/

/-- Carrier for Go `float64` values.  The source only copies such values
into request structs, so no arithmetic on the carrier is needed. -/
structure GoFloat64 where
  val : Int
deriving DecidableEq, Repr

/-- AWS SDK constant `efs.ThroughputModeProvisioned`. -/
def ThroughputModeProvisioned : String := "provisioned"

/-- AWS SDK constant `efs.ThroughputModeBursting` (schema default of
`throughput_mode`). -/
def ThroughputModeBursting : String := "bursting"

/-- The configuration attributes `resourceFileSystemCreate` and
`resourceFileSystemUpdate` read, each as its `Get` value (`""`/`false` when
unset, matching Terraform's zero-value semantics of `GetOk`). -/
structure ResourceData where
  creation_token : String
  availability_zone_name : String
  performance_mode : String
  encrypted : Bool
  kms_key_id : String
  throughput_mode : String
  provisioned_throughput_in_mibps : GoFloat64
deriving DecidableEq, Repr

/-- The fields of `efs.CreateFileSystemInput` the source populates
(tags omitted: they are handled by the generated tagging interceptor).
`Option` fields model the `*T` SDK pointer fields left nil when unset. -/
structure CreateFileSystemInput where
  creationToken : String
  throughputMode : String
  availabilityZoneName : Option String := none
  performanceMode : Option String := none
  provisionedThroughputInMibps : Option GoFloat64 := none
  encrypted : Option Bool := none
  kmsKeyId : Option String := none
deriving DecidableEq, Repr

/-- The error message of the encrypted/kms_key_id validation in
`resourceFileSystemCreate`. -/
def encryptedKmsError : String :=
  "encrypted must be set to true when kms_key_id is specified"

/-- The request-construction prefix of `resourceFileSystemCreate`, up to
(and excluding) the `CreateFileSystem` API call: choose the creation token
(the configured one when set, otherwise the freshly generated `uniqueId`),
copy `availability_zone_name` / `performance_mode` / `encrypted` /
`kms_key_id` when set, include the provisioned throughput exactly when the
throughput mode is "provisioned", and reject a `kms_key_id` whose
`encrypted` value is false.  `Except.error` means the handler returns the
diagnostic without calling `CreateFileSystem`. -/
def resourceFileSystemCreateInput (d : ResourceData) (uniqueId : String) :
    Except String CreateFileSystemInput :=
  -- Each conditional in the source sets exactly one distinct field of the
  -- one `input` struct, so the sequence of conditional assignments is
  -- rendered as one record literal with conditional fields.  `GetOk` on a
  -- bool attribute: ok exactly when the stored value is true.
  let input : CreateFileSystemInput :=
    { creationToken :=
        if d.creation_token ≠ "" then d.creation_token else uniqueId
      throughputMode := d.throughput_mode
      availabilityZoneName :=
        if d.availability_zone_name ≠ "" then some d.availability_zone_name
        else none
      performanceMode :=
        if d.performance_mode ≠ "" then some d.performance_mode else none
      provisionedThroughputInMibps :=
        if d.throughput_mode = ThroughputModeProvisioned then
          some d.provisioned_throughput_in_mibps
        else none
      encrypted := if d.encrypted then some d.encrypted else none
      kmsKeyId := if d.kms_key_id ≠ "" then some d.kms_key_id else none }
  if d.encrypted = false ∧ d.kms_key_id ≠ "" then
    Except.error encryptedKmsError
  else
    Except.ok input

/-- The fields of `efs.UpdateFileSystemInput` the source populates. -/
structure UpdateFileSystemInput where
  fileSystemId : String
  throughputMode : String
  provisionedThroughputInMibps : Option GoFloat64 := none
deriving DecidableEq, Repr

/-- The `UpdateFileSystemInput` built by `resourceFileSystemUpdate` when
`provisioned_throughput_in_mibps` or `throughput_mode` changed: the
provisioned throughput is included exactly when the throughput mode is
"provisioned". -/
def resourceFileSystemUpdateInput (d : ResourceData) (id : String) :
    UpdateFileSystemInput :=
  { fileSystemId := id
    throughputMode := d.throughput_mode
    provisionedThroughputInMibps :=
      if d.throughput_mode = ThroughputModeProvisioned then
        some d.provisioned_throughput_in_mibps
      else none }

/-! ## Terraform attribute maps and the flatten/expand helpers

A Go `map[string]interface{}` is modelled as a function from keys to
optional attribute values, matching value-equality of Go maps. -/

/-- An attribute value stored in a Terraform map: a string or an int64. -/
inductive AttrVal where
  | s (v : String)
  | i (v : Int)
deriving DecidableEq, Repr

/-- A `map[string]interface{}`: total lookup, `none` = key absent. -/
def TFMap := String → Option AttrVal

/-- The empty map. -/
def TFMap.empty : TFMap := fun _ => none

/-- Map update `m[k] = v`. -/
def TFMap.insert (m : TFMap) (k : String) (v : AttrVal) : TFMap :=
  fun k' => if k' = k then some v else m k'

/-- `m[k].(string)` with its ok flag: the string value when the key is
bound to a string, otherwise `none` (the zero value with ok = false). -/
def TFMap.getString (m : TFMap) (k : String) : Option String :=
  match m k with
  | some (AttrVal.s v) => some v
  | _ => none

/-- `aws.StringValue`: dereference-or-empty. -/
def stringValue (o : Option String) : String := o.getD ""

/-- `aws.Int64Value`: dereference-or-zero. -/
def int64Value (o : Option Int) : Int := o.getD 0

/-- The fields of `efs.LifecyclePolicy` (all `*string`). -/
structure LifecyclePolicy where
  TransitionToArchive : Option String := none
  TransitionToIA : Option String := none
  TransitionToPrimaryStorageClass : Option String := none
deriving DecidableEq, Repr

/-- `expandFileSystemLifecyclePolicies`: for every map in the list, set
each policy field from the corresponding key when it is bound to a
non-empty string.  (The source also skips non-map entries of the untyped
`[]interface{}`; the model's list is already map-typed.) -/
def expandFileSystemLifecyclePolicies (tfList : List TFMap) :
    List LifecyclePolicy :=
  tfList.map (fun tfMap =>
    let apiObject : LifecyclePolicy := {}
    let apiObject := match tfMap.getString "transition_to_archive" with
      | some v => if v ≠ "" then
          { apiObject with TransitionToArchive := some v } else apiObject
      | none => apiObject
    let apiObject := match tfMap.getString "transition_to_ia" with
      | some v => if v ≠ "" then
          { apiObject with TransitionToIA := some v } else apiObject
      | none => apiObject
    match tfMap.getString "transition_to_primary_storage_class" with
      | some v => if v ≠ "" then
          { apiObject with TransitionToPrimaryStorageClass := some v }
        else apiObject
      | none => apiObject)

/-- `flattenFileSystemLifecyclePolicies`: one map per policy, containing
each key exactly when the corresponding field is non-nil.  (The source
skips nil pointers in the input list; the model's list is already
value-typed.) -/
def flattenFileSystemLifecyclePolicies (apiObjects : List LifecyclePolicy) :
    List TFMap :=
  apiObjects.map (fun apiObject =>
    let tfMap := TFMap.empty
    let tfMap := match apiObject.TransitionToArchive with
      | some _ => tfMap.insert "transition_to_archive"
          (AttrVal.s (stringValue apiObject.TransitionToArchive))
      | none => tfMap
    let tfMap := match apiObject.TransitionToIA with
      | some _ => tfMap.insert "transition_to_ia"
          (AttrVal.s (stringValue apiObject.TransitionToIA))
      | none => tfMap
    match apiObject.TransitionToPrimaryStorageClass with
      | some _ => tfMap.insert "transition_to_primary_storage_class"
          (AttrVal.s (stringValue apiObject.TransitionToPrimaryStorageClass))
      | none => tfMap)

/-- The fields of `efs.FileSystemSize` (`Value : *int64` and the two
optional per-class values). -/
structure FileSystemSize where
  Value : Option Int := none
  ValueInIA : Option Int := none
  ValueInStandard : Option Int := none
deriving DecidableEq, Repr

/-- `flattenFileSystemSizeInBytes`: the empty list for nil, otherwise one
map with `"value"` always present (dereferenced `Value`) and
`"value_in_ia"` / `"value_in_standard"` present exactly when the fields
are non-nil. -/
def flattenFileSystemSizeInBytes (sizeInBytes : Option FileSystemSize) :
    List TFMap :=
  match sizeInBytes with
  | none => []
  | some sz =>
    let m := TFMap.empty.insert "value" (AttrVal.i (int64Value sz.Value))
    let m := match sz.ValueInIA with
      | some _ => m.insert "value_in_ia" (AttrVal.i (int64Value sz.ValueInIA))
      | none => m
    let m := match sz.ValueInStandard with
      | some _ => m.insert "value_in_standard"
          (AttrVal.i (int64Value sz.ValueInStandard))
      | none => m
    [m]

/-- The one field of `efs.FileSystemProtectionDescription` the source
reads. -/
structure FileSystemProtectionDescription where
  ReplicationOverwriteProtection : Option String := none
deriving DecidableEq, Repr

/-- `flattenFileSystemProtection`: the empty list for nil, otherwise one
map with `"replication_overwrite"` present exactly when the field is
non-nil. -/
def flattenFileSystemProtection
    (protection : Option FileSystemProtectionDescription) : List TFMap :=
  match protection with
  | none => []
  | some p =>
    let tfMap := TFMap.empty
    let tfMap := match p.ReplicationOverwriteProtection with
      | some _ => tfMap.insert "replication_overwrite"
          (AttrVal.s (stringValue p.ReplicationOverwriteProtection))
      | none => tfMap
    [tfMap]

/-! ## `resourceFileSystemDelete` and `resourceFileSystemRead`

The remote API calls are modelled by their outcomes, passed as arguments;
diagnostics are the list of error-diagnostic messages the handler appends
(the empty list is a successful return). -/

/-- An error returned by an AWS API call: either a coded AWS error or any
other error, both with a message. -/
inductive ApiError where
  | aws (code : String) (msg : String)
  | plain (msg : String)
deriving DecidableEq, Repr

/-- `tfawserr.ErrCodeEquals`: true exactly for a coded AWS error with the
given code. -/
def errCodeEquals (err : Option ApiError) (code : String) : Bool :=
  match err with
  | some (ApiError.aws c _) => c = code
  | _ => false

/-- The message of an `ApiError`. -/
def ApiError.message : ApiError → String
  | ApiError.aws _ m => m
  | ApiError.plain m => m

/-- AWS SDK constant `efs.ErrCodeFileSystemNotFound`. -/
def ErrCodeFileSystemNotFound : String := "FileSystemNotFound"

/-- `resourceFileSystemDelete`, with the `DeleteFileSystem` call outcome
and the `waitFileSystemDeleted` outcome as arguments: a
`FileSystemNotFound` error code from the delete call returns success at
once (the wait outcome is never consulted); any other delete error is
appended as a diagnostic; otherwise a wait error is appended as a
diagnostic and a clean wait returns success. -/
def resourceFileSystemDelete (id : String) (deleteErr : Option ApiError)
    (waitErr : Option ApiError) : List String :=
  if errCodeEquals deleteErr ErrCodeFileSystemNotFound then []
  else
    match deleteErr with
    | some e =>
      ["deleting EFS file system (" ++ id ++ "): " ++ e.message]
    | none =>
      match waitErr with
      | some e =>
        ["waiting for EFS file system (" ++ id ++ ") delete: " ++ e.message]
      | none => []

/-- Outcome of `FindFileSystemByID` as consumed by
`resourceFileSystemRead`: `tfresource.NotFound` distinguishes the
not-found error from any other error. -/
inductive FindErr where
  | notFound
  | other (e : ApiError)
deriving DecidableEq, Repr

/-- The state `resourceFileSystemRead` leaves behind, restricted to what
the claims consult: the resource id after the handler ran (`""` means the
resource was removed from state) and the error diagnostics. -/
structure ReadResult where
  id : String
  diags : List String
deriving DecidableEq, Repr

/-- `resourceFileSystemRead`, with the `FindFileSystemByID` outcome, the
`IsNewResource` flag and the current id as arguments (attribute setting
and the lifecycle-configuration read that follow a successful find are
outside the claims and summarised by a clean result): a not-found error on
a resource that is not newly created clears the id and returns no
diagnostics; any other error — including not-found on a newly created
resource — is appended as a diagnostic. -/
def resourceFileSystemRead (find : Except FindErr FileSystemDescription)
    (isNewResource : Bool) (id : String) : ReadResult :=
  match find with
  | Except.error e =>
    if isNewResource = false ∧ e = FindErr.notFound then
      { id := "", diags := [] }
    else
      { id := id,
        diags := ["reading EFS file system (" ++ id ++ ")"] }
  | Except.ok _ => { id := id, diags := [] }

/-! ## Theorems -/

/-- C3: `resourceFileSystemCreate` translates the configuration into a
`CreateFileSystemInput` such that the creation token equals the configured
`creation_token` when set and a freshly generated unique ID otherwise;
`availability_zone_name` and `performance_mode` are copied only when set;
and `ProvisionedThroughputInMibps` is included if and only if
`throughput_mode` equals "provisioned" — and the same conditional holds in
`resourceFileSystemUpdate`'s `UpdateFileSystemInput`. -/
theorem C3_create_update_inputs (d : ResourceData) (uniqueId fsId : String)
    (input : CreateFileSystemInput)
    (h : resourceFileSystemCreateInput d uniqueId = Except.ok input) :
    (d.creation_token ≠ "" → input.creationToken = d.creation_token)
    ∧ (d.creation_token = "" → input.creationToken = uniqueId)
    ∧ input.availabilityZoneName =
        (if d.availability_zone_name ≠ "" then some d.availability_zone_name
         else none)
    ∧ input.performanceMode =
        (if d.performance_mode ≠ "" then some d.performance_mode else none)
    ∧ (input.provisionedThroughputInMibps.isSome ↔
        d.throughput_mode = ThroughputModeProvisioned)
    ∧ ((resourceFileSystemUpdateInput d fsId).provisionedThroughputInMibps.isSome
        ↔ d.throughput_mode = ThroughputModeProvisioned) := by
  have hupd :
      (resourceFileSystemUpdateInput d fsId).provisionedThroughputInMibps.isSome
        ↔ d.throughput_mode = ThroughputModeProvisioned := by
    simp only [resourceFileSystemUpdateInput]
    split_ifs with hm <;> simp [hm]
  simp only [resourceFileSystemCreateInput] at h
  by_cases hv : d.encrypted = false ∧ d.kms_key_id ≠ ""
  · rw [if_pos hv] at h
    exact absurd h (by simp)
  · rw [if_neg hv] at h
    injection h with h
    subst h
    refine ⟨fun hc => by simp [hc], fun hc => by simp [hc], rfl, rfl, ?_,
      hupd⟩
    split_ifs <;> simp_all

/-- Configuration used to witness C3. -/
def c3ConfigW : ResourceData :=
  { creation_token := "tok"
    availability_zone_name := ""
    performance_mode := "generalPurpose"
    encrypted := true
    kms_key_id := "arn:key"
    throughput_mode := "provisioned"
    provisioned_throughput_in_mibps := ⟨5⟩ }

/-- Request built from `c3ConfigW`. -/
def c3InputW : CreateFileSystemInput :=
  { creationToken := "tok"
    throughputMode := "provisioned"
    availabilityZoneName := none
    performanceMode := some "generalPurpose"
    provisionedThroughputInMibps := some ⟨5⟩
    encrypted := some true
    kmsKeyId := some "arn:key" }

/-- Witness for C3 at a concrete configuration. -/
theorem C3_create_update_inputs_witness :
    c3InputW.provisionedThroughputInMibps.isSome ↔
      c3ConfigW.throughput_mode = ThroughputModeProvisioned :=
  (C3_create_update_inputs c3ConfigW "u-1" "fs-1" c3InputW
    (by rfl)).2.2.2.2.1

/-- C8: with `kms_key_id` present (set to a non-empty value) and
`encrypted` absent-or-false (Terraform's `GetOk` yields the zero value
`false` for both), `resourceFileSystemCreate` returns the
encrypted/kms_key_id validation error instead of calling
`CreateFileSystem`. -/
theorem C8_kms_requires_encrypted (d : ResourceData) (uniqueId : String)
    (hk : d.kms_key_id ≠ "") (he : d.encrypted = false) :
    resourceFileSystemCreateInput d uniqueId =
      Except.error encryptedKmsError := by
  simp only [resourceFileSystemCreateInput]
  rw [if_pos ⟨he, hk⟩]

/-- Witness for C8: a configuration with a kms key and `encrypted` left at
its zero value is rejected. -/
theorem C8_kms_requires_encrypted_witness :
    resourceFileSystemCreateInput
      { creation_token := ""
        availability_zone_name := ""
        performance_mode := ""
        encrypted := false
        kms_key_id := "arn:key"
        throughput_mode := "bursting"
        provisioned_throughput_in_mibps := ⟨0⟩ } "u-2" =
      Except.error encryptedKmsError :=
  C8_kms_requires_encrypted _ "u-2" (by decide) rfl

/-- C6: `flattenFileSystemSizeInBytes` returns the empty list for nil and
otherwise a one-element list whose map always contains `"value"` (the
dereferenced `Value`) and contains `"value_in_ia"` / `"value_in_standard"`
exactly when the corresponding fields are non-nil;
`flattenFileSystemProtection` likewise returns the empty list for nil and
otherwise one map containing `"replication_overwrite"` exactly when that
field is non-nil. -/
theorem C6_flatten_size_and_protection :
    flattenFileSystemSizeInBytes none = []
    ∧ (∀ sz : FileSystemSize, ∃ m : TFMap,
        flattenFileSystemSizeInBytes (some sz) = [m]
        ∧ m "value" = some (AttrVal.i (int64Value sz.Value))
        ∧ ((m "value_in_ia").isSome ↔ sz.ValueInIA.isSome)
        ∧ ((m "value_in_standard").isSome ↔ sz.ValueInStandard.isSome))
    ∧ flattenFileSystemProtection none = []
    ∧ (∀ p : FileSystemProtectionDescription, ∃ m : TFMap,
        flattenFileSystemProtection (some p) = [m]
        ∧ ((m "replication_overwrite").isSome ↔
            p.ReplicationOverwriteProtection.isSome)) := by
  refine ⟨rfl, ?_, rfl, ?_⟩
  · rintro ⟨v, ia, std⟩
    cases ia <;> cases std <;>
      exact ⟨_, rfl, by simp [TFMap.insert, TFMap.empty],
        by simp [TFMap.insert, TFMap.empty],
        by simp [TFMap.insert, TFMap.empty]⟩
  · rintro ⟨ro⟩
    cases ro <;> exact ⟨_, rfl, by simp [TFMap.insert, TFMap.empty]⟩

/-- The three keys of a lifecycle-policy configuration block. -/
def lifecycleKeys : List String :=
  ["transition_to_archive", "transition_to_ia",
   "transition_to_primary_storage_class"]

/-- A well-formed lifecycle-policy map: each of the three keys is absent
or bound to a non-empty string, and no other key occurs. -/
def WFLifecycleMap (m : TFMap) : Prop :=
  (∀ k ∈ lifecycleKeys,
    m k = none ∨ ∃ v, v ≠ "" ∧ m k = some (AttrVal.s v))
  ∧ ∀ k, k ∉ lifecycleKeys → m k = none

/-- `nonEmptyOpt o`: the value of `o` when it is a non-empty string. -/
def nonEmptyOpt : Option String → Option String
  | some v => if v ≠ "" then some v else none
  | none => none

/-- Conditional map insertion: insert when the value is present. -/
def TFMap.insertOpt (m : TFMap) (k : String) (o : Option String) : TFMap :=
  match o with
  | some v => m.insert k (AttrVal.s v)
  | none => m

/-- Evaluation of flatten-after-expand on a single map: the result inserts
each transition key exactly when the map binds it to a non-empty string. -/
theorem flattenExpandEval (m : TFMap) :
    flattenFileSystemLifecyclePolicies
      (expandFileSystemLifecyclePolicies [m]) =
    [((TFMap.empty.insertOpt "transition_to_archive"
        (nonEmptyOpt (m.getString "transition_to_archive"))).insertOpt
          "transition_to_ia"
          (nonEmptyOpt (m.getString "transition_to_ia"))).insertOpt
        "transition_to_primary_storage_class"
        (nonEmptyOpt (m.getString "transition_to_primary_storage_class"))] := by
  simp only [expandFileSystemLifecyclePolicies,
    flattenFileSystemLifecyclePolicies, List.map_cons, List.map_nil]
  cases hga : m.getString "transition_to_archive" <;>
    cases hgi : m.getString "transition_to_ia" <;>
      cases hgp : m.getString "transition_to_primary_storage_class" <;>
        simp only [nonEmptyOpt, TFMap.insertOpt, stringValue] <;>
          split_ifs <;> simp_all [TFMap.insertOpt]

/-- The conditional insert chain of `flattenExpandEval` rebuilds a map
whose three transition keys hold exactly those non-empty string values and
whose other keys are absent. -/
theorem insertOptChainEq (m : TFMap)
    (h2 : ∀ k, k ∉ lifecycleKeys → m k = none)
    (ha : m "transition_to_archive" =
      (nonEmptyOpt (m.getString "transition_to_archive")).map AttrVal.s)
    (hi : m "transition_to_ia" =
      (nonEmptyOpt (m.getString "transition_to_ia")).map AttrVal.s)
    (hp : m "transition_to_primary_storage_class" =
      (nonEmptyOpt (m.getString "transition_to_primary_storage_class")).map
        AttrVal.s) :
    ((TFMap.empty.insertOpt "transition_to_archive"
        (nonEmptyOpt (m.getString "transition_to_archive"))).insertOpt
          "transition_to_ia"
          (nonEmptyOpt (m.getString "transition_to_ia"))).insertOpt
        "transition_to_primary_storage_class"
        (nonEmptyOpt (m.getString "transition_to_primary_storage_class"))
      = m := by
  funext k
  by_cases hk1 : k = "transition_to_archive"
  · subst hk1
    rw [ha]
    cases nonEmptyOpt (m.getString "transition_to_archive") <;>
      cases nonEmptyOpt (m.getString "transition_to_ia") <;>
        cases nonEmptyOpt (m.getString "transition_to_primary_storage_class")
          <;> simp [TFMap.insertOpt, TFMap.insert, TFMap.empty]
  by_cases hk2 : k = "transition_to_ia"
  · subst hk2
    rw [hi]
    cases nonEmptyOpt (m.getString "transition_to_archive") <;>
      cases nonEmptyOpt (m.getString "transition_to_ia") <;>
        cases nonEmptyOpt (m.getString "transition_to_primary_storage_class")
          <;> simp [TFMap.insertOpt, TFMap.insert, TFMap.empty]
  by_cases hk3 : k = "transition_to_primary_storage_class"
  · subst hk3
    rw [hp]
    cases nonEmptyOpt (m.getString "transition_to_archive") <;>
      cases nonEmptyOpt (m.getString "transition_to_ia") <;>
        cases nonEmptyOpt (m.getString "transition_to_primary_storage_class")
          <;> simp [TFMap.insertOpt, TFMap.insert, TFMap.empty]
  rw [h2 k (by simp [lifecycleKeys, hk1, hk2, hk3])]
  cases nonEmptyOpt (m.getString "transition_to_archive") <;>
    cases nonEmptyOpt (m.getString "transition_to_ia") <;>
      cases nonEmptyOpt (m.getString "transition_to_primary_storage_class")
        <;> simp [TFMap.insertOpt, TFMap.insert, TFMap.empty, hk1, hk2, hk3]

/-- Flattening the expansion of one well-formed lifecycle-policy map gives
the map back. -/
theorem flattenExpandLifecycleMap (m : TFMap) (h : WFLifecycleMap m) :
    flattenFileSystemLifecyclePolicies
      (expandFileSystemLifecyclePolicies [m]) = [m] := by
  obtain ⟨h1, h2⟩ := h
  have ha : m "transition_to_archive" =
      (nonEmptyOpt (m.getString "transition_to_archive")).map AttrVal.s := by
    rcases h1 "transition_to_archive" (by simp [lifecycleKeys]) with
      h | ⟨v, hv, h⟩
    · simp [h, TFMap.getString, nonEmptyOpt]
    · simp [h, TFMap.getString, nonEmptyOpt, hv]
  have hi : m "transition_to_ia" =
      (nonEmptyOpt (m.getString "transition_to_ia")).map AttrVal.s := by
    rcases h1 "transition_to_ia" (by simp [lifecycleKeys]) with
      h | ⟨v, hv, h⟩
    · simp [h, TFMap.getString, nonEmptyOpt]
    · simp [h, TFMap.getString, nonEmptyOpt, hv]
  have hp : m "transition_to_primary_storage_class" =
      (nonEmptyOpt (m.getString "transition_to_primary_storage_class")).map
        AttrVal.s := by
    rcases h1 "transition_to_primary_storage_class"
      (by simp [lifecycleKeys]) with h | ⟨v, hv, h⟩
    · simp [h, TFMap.getString, nonEmptyOpt]
    · simp [h, TFMap.getString, nonEmptyOpt, hv]
  rw [flattenExpandEval m, insertOptChainEq m h2 ha hi hp]

/-- C7: for every list of lifecycle-policy maps in which each of the three
transition keys is absent or bound to a non-empty string and no other keys
occur, flattening the expansion returns the original list. -/
theorem C7_flatten_expand_roundtrip (l : List TFMap)
    (h : ∀ m ∈ l, WFLifecycleMap m) :
    flattenFileSystemLifecyclePolicies
      (expandFileSystemLifecyclePolicies l) = l := by
  induction l with
  | nil => rfl
  | cons m l ih =>
    have hm := h m (List.mem_cons_self m l)
    have hl := ih (fun x hx => h x (List.mem_cons_of_mem m hx))
    have hhead := flattenExpandLifecycleMap m hm
    simp only [expandFileSystemLifecyclePolicies,
      flattenFileSystemLifecyclePolicies, List.map_cons, List.map_nil]
      at hhead hl ⊢
    rw [List.cons.injEq]
    exact ⟨by injection hhead, hl⟩

/-- Lifecycle map used to witness C7. -/
def c7MapW : TFMap :=
  TFMap.empty.insert "transition_to_ia" (AttrVal.s "AFTER_7_DAYS")

/-- Witness for C7 on a concrete one-policy list. -/
theorem C7_flatten_expand_roundtrip_witness :
    flattenFileSystemLifecyclePolicies
      (expandFileSystemLifecyclePolicies [c7MapW]) = [c7MapW] := by
  refine C7_flatten_expand_roundtrip [c7MapW] ?_
  intro m hm
  rw [List.mem_singleton] at hm
  subst hm
  constructor
  · intro k hk
    simp only [lifecycleKeys, List.mem_cons, List.not_mem_nil, or_false]
      at hk
    rcases hk with rfl | rfl | rfl
    · exact Or.inl rfl
    · exact Or.inr ⟨"AFTER_7_DAYS", by decide, rfl⟩
    · exact Or.inl rfl
  · intro k hk
    simp only [lifecycleKeys, List.mem_cons, List.not_mem_nil, or_false,
      not_or] at hk
    obtain ⟨h1, h2, h3⟩ := hk
    simp [c7MapW, TFMap.insert, TFMap.empty, h2]

/-- C9: `resourceFileSystemDelete` is idempotent with respect to a missing
remote file system — a `FileSystemNotFound` delete error returns success
regardless of the wait outcome (in particular, the wait is not consulted);
any other delete error is reported as a diagnostic; on a successful delete
call the result is clean exactly when the wait finishes cleanly, and a
wait failure is reported as a diagnostic. -/
theorem C9_delete_idempotent (id : String)
    (deleteErr waitErr : Option ApiError) :
    (errCodeEquals deleteErr ErrCodeFileSystemNotFound = true →
      resourceFileSystemDelete id deleteErr waitErr = [])
    ∧ (∀ e, deleteErr = some e →
        errCodeEquals deleteErr ErrCodeFileSystemNotFound = false →
        resourceFileSystemDelete id deleteErr waitErr ≠ [])
    ∧ resourceFileSystemDelete id none none = []
    ∧ (∀ e, resourceFileSystemDelete id none (some e) ≠ []) := by
  refine ⟨?_, ?_, ?_, ?_⟩
  · intro h
    simp [resourceFileSystemDelete, h]
  · rintro e rfl h
    simp [resourceFileSystemDelete, h]
  · simp [resourceFileSystemDelete, errCodeEquals]
  · intro e
    simp [resourceFileSystemDelete, errCodeEquals]

/-- Witness for C9: a `FileSystemNotFound`-coded delete error yields a
clean return even when the wait would have failed. -/
theorem C9_delete_idempotent_witness :
    resourceFileSystemDelete "fs-9"
      (some (ApiError.aws ErrCodeFileSystemNotFound "gone"))
      (some (ApiError.plain "boom")) = [] :=
  (C9_delete_idempotent "fs-9"
    (some (ApiError.aws ErrCodeFileSystemNotFound "gone"))
    (some (ApiError.plain "boom"))).1 (by decide)

/-- C10: a not-found result from `FindFileSystemByID` on a resource that
is not newly created makes `resourceFileSystemRead` clear the id and
return no error diagnostics, while the same not-found condition on a newly
created resource is reported as an error. -/
theorem C10_read_not_found (id : String) :
    resourceFileSystemRead (Except.error FindErr.notFound) false id =
      { id := "", diags := [] }
    ∧ (resourceFileSystemRead (Except.error FindErr.notFound) true id).diags
        ≠ []
    ∧ (resourceFileSystemRead (Except.error FindErr.notFound) true id).id
        = id := by
  refine ⟨?_, ?_, ?_⟩ <;> simp [resourceFileSystemRead]


/-- If the first i outcomes of f are retryable errors and the i-th
invocation succeeds within the fuel, the loop reaches the target with a
nil resultErr. -/
theorem retryLoop_success {ε : Type} :
    ∀ (i fuel : Nat) (f : Nat → Option (RetryError ε)) (r0 : Option ε),
      i < fuel →
      (∀ j, j < i → ∃ r, f j = some r ∧ r.retryable = true) →
      f i = none →
      retryConfigLoop f fuel r0 = (none, none) := by
  intro i
  induction i with
  | zero =>
    intro fuel f r0 hfuel _ hf
    cases fuel with
    | zero => omega
    | succ k => simp [retryConfigLoop, hf]
  | succ i ih =>
    intro fuel f r0 hfuel hpre hf
    cases fuel with
    | zero => omega
    | succ k =>
      obtain ⟨r, hr, hret⟩ := hpre 0 (Nat.succ_pos i)
      simp only [retryConfigLoop, hr, hret, if_true]
      exact ih k (fun n => f (n + 1)) (some r.err) (by omega)
        (fun j hj => hpre (j + 1) (by omega)) hf

/-- If the first i outcomes of f are retryable errors and the i-th
invocation fails non-retryably within the fuel, the loop aborts at once
with that error as both resultErr and wait error. -/
theorem retryLoop_nonretryable {ε : Type} :
    ∀ (i fuel : Nat) (f : Nat → Option (RetryError ε)) (r0 : Option ε)
      (r : RetryError ε),
      i < fuel →
      (∀ j, j < i → ∃ rj, f j = some rj ∧ rj.retryable = true) →
      f i = some r → r.retryable = false →
      retryConfigLoop f fuel r0 =
        (some r.err, some (RetryWaitErr.refreshErr r.err)) := by
  intro i
  induction i with
  | zero =>
    intro fuel f r0 r hfuel _ hf hret
    cases fuel with
    | zero => omega
    | succ k => simp [retryConfigLoop, hf, hret]
  | succ i ih =>
    intro fuel f r0 r hfuel hpre hf hret
    cases fuel with
    | zero => omega
    | succ k =>
      obtain ⟨rj, hr, hretj⟩ := hpre 0 (Nat.succ_pos i)
      simp only [retryConfigLoop, hr, hretj, if_true]
      exact ih k (fun n => f (n + 1)) (some rj.err) r (by omega)
        (fun j hj => hpre (j + 1) (by omega)) hf hret

/-- If every invocation within the fuel returns a retryable error, the
loop times out with resultErr holding the last retryable error. -/
theorem retryLoop_timeout {ε : Type} :
    ∀ (fuel : Nat) (f : Nat → Option (RetryError ε)) (r0 : Option ε)
      (r : RetryError ε),
      0 < fuel →
      (∀ j, j < fuel → ∃ rj, f j = some rj ∧ rj.retryable = true) →
      f (fuel - 1) = some r →
      retryConfigLoop f fuel r0 = (some r.err, some RetryWaitErr.timeout) := by
  intro fuel
  induction fuel with
  | zero => intro f r0 r h; omega
  | succ k ih =>
    intro f r0 r _ hall hlast
    obtain ⟨r0s, h0, hret0⟩ := hall 0 (Nat.succ_pos k)
    by_cases hk : k = 0
    · subst hk
      have hr : r0s = r := by
        have : f 0 = some r := hlast
        rw [h0] at this
        exact (Option.some.injEq _ _).mp this
      subst hr
      simp [retryConfigLoop, h0, hret0]
    · simp only [retryConfigLoop, h0, hret0, if_true]
      refine ih (fun n => f (n + 1)) (some r0s.err) r
        (Nat.pos_of_ne_zero hk) (fun j hj => hall (j + 1) (by omega)) ?_
      show f (k - 1 + 1) = some r
      have hkk : k - 1 + 1 = k := by omega
      rw [hkk]
      exact hlast

/-- Conversely, the loop only reports success when some invocation of f
returned nil after a prefix of retryable errors. -/
theorem retryLoop_complete {ε : Type} :
    ∀ (fuel : Nat) (f : Nat → Option (RetryError ε)) (r0 : Option ε),
      retryConfigLoop f fuel r0 = (none, none) →
      ∃ i, i < fuel ∧ f i = none ∧
        ∀ j, j < i → ∃ r, f j = some r ∧ r.retryable = true := by
  intro fuel
  induction fuel with
  | zero =>
    intro f r0 h
    simp [retryConfigLoop] at h
  | succ k ih =>
    intro f r0 h
    cases hf0 : f 0 with
    | none =>
      exact ⟨0, Nat.succ_pos k, hf0, fun j hj => absurd hj (by omega)⟩
    | some r =>
      by_cases hret : r.retryable = true
      · simp only [retryConfigLoop, hf0, hret, if_true] at h
        obtain ⟨i, hi, hnone, hpre⟩ := ih (fun n => f (n + 1)) (some r.err) h
        refine ⟨i + 1, by omega, hnone, ?_⟩
        intro j hj
        cases j with
        | zero => exact ⟨r, hf0, hret⟩
        | succ j => exact hpre j (by omega)
      · simp only [retryConfigLoop, hf0] at h
        rw [if_neg hret] at h
        exact absurd h (by simp)


/-- C1: `RetryConfigContext` returns nil iff some invocation of f within
the timeout returns nil; a non-retryable error from f stops polling
immediately (the result is unchanged by the behaviour of f past that
invocation) and is returned; and when the timeout elapses while f keeps
returning retryable errors, the last retryable error is returned in
preference to the generic wait-timeout error. -/
theorem C1_retry_config_context {ε : Type}
    (f : Nat → Option (RetryError ε)) (fuel : Nat) :
    (RetryConfigContext f fuel = none ↔
      ∃ i, i < fuel ∧ f i = none ∧
        ∀ j, j < i → ∃ r, f j = some r ∧ r.retryable = true)
    ∧ (∀ i r, i < fuel →
        (∀ j, j < i → ∃ rj, f j = some rj ∧ rj.retryable = true) →
        f i = some r → r.retryable = false →
        RetryConfigContext f fuel = some (GoRetErr.fromF r.err)
        ∧ ∀ g : Nat → Option (RetryError ε), (∀ j, j ≤ i → g j = f j) →
            RetryConfigContext g fuel = some (GoRetErr.fromF r.err))
    ∧ (0 < fuel →
        (∀ j, j < fuel → ∃ r, f j = some r ∧ r.retryable = true) →
        ∀ r, f (fuel - 1) = some r →
          RetryConfigContext f fuel = some (GoRetErr.fromF r.err)) := by
  refine ⟨⟨?_, ?_⟩, ?_, ?_⟩
  · intro h
    refine retryLoop_complete fuel f none ?_
    unfold RetryConfigContext at h
    rcases hloop : retryConfigLoop f fuel none with ⟨re, we⟩
    rw [hloop] at h
    cases re with
    | some e => simp at h
    | none =>
      cases we with
      | none => rfl
      | some w => cases w <;> simp at h
  · rintro ⟨i, hi, hnone, hpre⟩
    unfold RetryConfigContext
    rw [retryLoop_success i fuel f none hi hpre hnone]
  · intro i r hi hpre hf hret
    constructor
    · unfold RetryConfigContext
      rw [retryLoop_nonretryable i fuel f none r hi hpre hf hret]
    · intro g hg
      unfold RetryConfigContext
      rw [retryLoop_nonretryable i fuel g none r hi
        (fun j hj => by rw [hg j (le_of_lt hj)]; exact hpre j hj)
        (by rw [hg i (le_refl i)]; exact hf) hret]
  · intro hpos hall r hlast
    unfold RetryConfigContext
    rw [retryLoop_timeout fuel f none r hpos hall hlast]

/-- Retried function used to witness C1: one retryable error, then
success. -/
def c1fW : Nat → Option (RetryError Nat) :=
  fun n => if n = 0 then some ⟨7, true⟩ else none

/-- Witness for C1: the success branch at a concrete retried function. -/
theorem C1_retry_config_context_witness :
    RetryConfigContext c1fW 3 = none :=
  (C1_retry_config_context c1fW 3).1.mpr
    ⟨1, by omega, rfl, by
      intro j hj
      have hj0 : j = 0 := by omega
      subst hj0
      exact ⟨⟨7, true⟩, rfl, rfl⟩⟩


/-- A duration has `Milliseconds() > 0` exactly when it is at least one
millisecond. -/
theorem durMilliseconds_pos_iff (d : Int) :
    0 < durMilliseconds d ↔ nsPerMs ≤ d := by
  unfold durMilliseconds nsPerMs
  rcases le_or_lt 0 d with hd | hd
  · rw [Int.tdiv_eq_ediv hd (by omega)]
    omega
  · have h2 : (-(-d)).tdiv 1000000 = -((-d).tdiv 1000000) :=
      Int.neg_tdiv (-d) 1000000
    rw [neg_neg] at h2
    have h3 : 0 ≤ (-d).tdiv 1000000 :=
      Int.tdiv_nonneg (by omega) (by omega)
    omega

/-- C4: when `delayRand` is at least one millisecond, the configured poll
delay equals the drawn whole number of milliseconds — a value in
[0, delayRand) — and overrides the fixed `delay` argument; when
`delayRand` is below one millisecond, the fixed delay is used whenever it
is at least one millisecond. -/
theorem C4_delay_configuration
    (delay delayRand minTimeout pollInterval draw : Int) :
    (nsPerMs ≤ delayRand → 0 ≤ draw → draw < durMilliseconds delayRand →
      (retryConfigDelays delay delayRand minTimeout pollInterval draw).delay
          = draw * nsPerMs
        ∧ 0 ≤ draw * nsPerMs ∧ draw * nsPerMs < delayRand)
    ∧ (delayRand < nsPerMs → nsPerMs ≤ delay →
        (retryConfigDelays delay delayRand minTimeout pollInterval
          draw).delay = delay) := by
  constructor
  · intro h1 h2 h3
    have hpos := (durMilliseconds_pos_iff delayRand).mpr h1
    refine ⟨?_, ?_, ?_⟩
    · simp only [retryConfigDelays]
      split_ifs <;> rfl
    · simp only [nsPerMs]
      omega
    · have hnn : 0 ≤ delayRand := by
        simp only [nsPerMs] at h1
        omega
      simp only [durMilliseconds, nsPerMs] at h3
      rw [Int.tdiv_eq_ediv hnn (by omega)] at h3
      simp only [nsPerMs]
      omega
  · intro h1 h2
    have hneg : ¬0 < durMilliseconds delayRand := by
      rw [durMilliseconds_pos_iff]
      omega
    have hpos := (durMilliseconds_pos_iff delay).mpr h2
    simp only [retryConfigDelays]
    split_ifs <;> rfl

/-- Witness for C4 at concrete durations: delay 5ms, delayRand 2ms,
draw 1. -/
theorem C4_delay_configuration_witness :
    (retryConfigDelays 5000000 2000000 0 0 1).delay = 1 * nsPerMs
      ∧ 0 ≤ (1 : Int) * nsPerMs ∧ (1 : Int) * nsPerMs < 2000000 :=
  (C4_delay_configuration 5000000 2000000 0 0 1).1 (by decide) (by decide)
    (by decide)


/-- One wait step through a pending state: the loop continues with the
shifted refresh sequence and a reset not-found counter. -/
theorem waitForState_step {ρ ε : Type} (pending target : List String)
    (nfc : Nat) (refresh : Nat → RefreshOut ρ ε) (nf fuel : Nat) (v : ρ)
    (h1 : (refresh 0).err = none) (h2 : (refresh 0).res = some v)
    (h3 : (refresh 0).state ∉ target)
    (h4 : (refresh 0).state ∈ pending) :
    waitForState pending target nfc refresh nf (fuel + 1) =
      waitForState pending target nfc (fun n => refresh (n + 1)) 0 fuel := by
  simp [waitForState, h1, h2, h3, h4]

/-- A refresh result in a target state finishes the wait successfully
with that result. -/
theorem waitForState_hit_target {ρ ε : Type} (pending target : List String)
    (nfc : Nat) (refresh : Nat → RefreshOut ρ ε) (nf fuel : Nat) (v : ρ)
    (h1 : (refresh 0).err = none) (h2 : (refresh 0).res = some v)
    (h3 : (refresh 0).state ∈ target) :
    waitForState pending target nfc refresh nf (fuel + 1) = (some v, none) := by
  simp [waitForState, h1, h2, h3]

/-- A refresh state in neither target nor pending aborts the wait with an
unexpected-state error. -/
theorem waitForState_hit_unexpected {ρ ε : Type}
    (pending target : List String)
    (nfc : Nat) (refresh : Nat → RefreshOut ρ ε) (nf fuel : Nat) (v : ρ)
    (h1 : (refresh 0).err = none) (h2 : (refresh 0).res = some v)
    (h3 : (refresh 0).state ∉ target)
    (h4 : (refresh 0).state ∉ pending) :
    waitForState pending target nfc refresh nf (fuel + 1) =
      (some v, some (WaitErr.unexpectedState (refresh 0).state)) := by
  simp [waitForState, h1, h2, h3, h4]

/-- A refresh error aborts the wait with that error. -/
theorem waitForState_hit_refresh_error {ρ ε : Type}
    (pending target : List String)
    (nfc : Nat) (refresh : Nat → RefreshOut ρ ε) (nf fuel : Nat) (e : ε)
    (h1 : (refresh 0).err = some e) :
    waitForState pending target nfc refresh nf (fuel + 1) =
      ((refresh 0).res, some (WaitErr.refreshErr e)) := by
  simp [waitForState, h1]

/-- With an empty target, a nil refresh result means the resource is gone
and the wait succeeds. -/
theorem waitForState_hit_gone {ρ ε : Type} (pending : List String)
    (nfc : Nat) (refresh : Nat → RefreshOut ρ ε) (nf fuel : Nat)
    (h1 : (refresh 0).err = none) (h2 : (refresh 0).res = none) :
    waitForState pending [] nfc refresh nf (fuel + 1) = (none, none) := by
  simp [waitForState, h1, h2]

/-- Skipping a prefix of refreshes that stay in pending states: the wait
equals the wait on the shifted refresh sequence with the remaining
fuel. -/
theorem waitForState_skip {ρ ε : Type} (pending target : List String)
    (nfc : Nat) :
    ∀ (i : Nat) (refresh : Nat → RefreshOut ρ ε) (nf fuel : Nat),
      i ≤ fuel →
      (∀ j, j < i →
        (refresh j).err = none ∧ (∃ v, (refresh j).res = some v)
        ∧ (refresh j).state ∉ target ∧ (refresh j).state ∈ pending) →
      ∃ nf2, waitForState pending target nfc refresh nf fuel =
        waitForState pending target nfc (fun n => refresh (n + i)) nf2
          (fuel - i) := by
  intro i
  induction i with
  | zero =>
    intro refresh nf fuel _ _
    exact ⟨nf, rfl⟩
  | succ i ih =>
    intro refresh nf fuel hle hpre
    cases fuel with
    | zero => omega
    | succ k =>
      obtain ⟨h1, ⟨v, h2⟩, h3, h4⟩ := hpre 0 (Nat.succ_pos i)
      rw [waitForState_step pending target nfc refresh nf k v h1 h2 h3 h4]
      obtain ⟨nf2, heq⟩ := ih (fun n => refresh (n + 1)) 0 k (by omega)
        (fun j hj => hpre (j + 1) (by omega))
      have hfuel : k + 1 - (i + 1) = k - i := by omega
      rw [hfuel]
      exact ⟨nf2, heq⟩


/-- C2: `waitFileSystemAvailable` polls `statusFileSystemLifeCycleState`,
continues while the state is "creating" or "updating", and returns the
observed file-system description exactly when the state becomes
"available"; an unexpected state or a refresh error ends the wait with an
error; and `waitFileSystemDeleted` analogously polls through "available"
and "deleting" until the file system is no longer found. -/
theorem C2_wait_file_system {ε : Type} (find : Nat → FindResult ε)
    (fuel i : Nat) (hi : i < fuel) :
    ((∀ j, j < i → ∃ g, find j = FindResult.found g ∧
        (g.lifeCycleState = LifeCycleStateCreating ∨
          g.lifeCycleState = LifeCycleStateUpdating)) →
      (∀ fs, find i = FindResult.found fs →
        (fs.lifeCycleState = LifeCycleStateAvailable →
          waitFileSystemAvailable find fuel = (some fs, none))
        ∧ (fs.lifeCycleState ≠ LifeCycleStateCreating →
            fs.lifeCycleState ≠ LifeCycleStateUpdating →
            fs.lifeCycleState ≠ LifeCycleStateAvailable →
            waitFileSystemAvailable find fuel =
              (some fs, some (WaitErr.unexpectedState fs.lifeCycleState))))
      ∧ ∀ e, find i = FindResult.apiErr e →
          waitFileSystemAvailable find fuel =
            (none, some (WaitErr.refreshErr e)))
    ∧ ((∀ j, j < i → ∃ g, find j = FindResult.found g ∧
          (g.lifeCycleState = LifeCycleStateAvailable ∨
            g.lifeCycleState = LifeCycleStateDeleting)) →
        find i = FindResult.notFound →
        waitFileSystemDeleted find fuel = (none, none)) := by
  constructor
  · intro hpre
    have hconds : ∀ j, j < i →
        (statusFileSystemLifeCycleState find j).err = none
        ∧ (∃ v, (statusFileSystemLifeCycleState find j).res = some v)
        ∧ (statusFileSystemLifeCycleState find j).state ∉
            [LifeCycleStateAvailable]
        ∧ (statusFileSystemLifeCycleState find j).state ∈
            [LifeCycleStateCreating, LifeCycleStateUpdating] := by
      intro j hj
      obtain ⟨g, hg, hstate⟩ := hpre j hj
      rcases hstate with h | h <;>
        simp [statusFileSystemLifeCycleState, hg, h, LifeCycleStateCreating,
          LifeCycleStateUpdating, LifeCycleStateAvailable]
    obtain ⟨nf2, hskip⟩ := waitForState_skip
      [LifeCycleStateCreating, LifeCycleStateUpdating]
      [LifeCycleStateAvailable] defaultNotFoundChecks i
      (statusFileSystemLifeCycleState find) 0 fuel (le_of_lt hi) hconds
    obtain ⟨k, hk⟩ : ∃ k, fuel - i = k + 1 := ⟨fuel - i - 1, by omega⟩
    refine ⟨?_, ?_⟩
    · intro fs hfs
      constructor
      · intro havail
        unfold waitFileSystemAvailable
        rw [hskip, hk]
        exact waitForState_hit_target
          [LifeCycleStateCreating, LifeCycleStateUpdating]
          [LifeCycleStateAvailable] defaultNotFoundChecks
          (fun n => statusFileSystemLifeCycleState find (n + i)) nf2 k fs
          (by simp [statusFileSystemLifeCycleState, hfs])
          (by simp [statusFileSystemLifeCycleState, hfs])
          (by simp [statusFileSystemLifeCycleState, hfs, havail])
      · intro hne1 hne2 hne3
        unfold waitFileSystemAvailable
        rw [hskip, hk]
        have hres := waitForState_hit_unexpected
          [LifeCycleStateCreating, LifeCycleStateUpdating]
          [LifeCycleStateAvailable] defaultNotFoundChecks
          (fun n => statusFileSystemLifeCycleState find (n + i)) nf2 k fs
          (by simp [statusFileSystemLifeCycleState, hfs])
          (by simp [statusFileSystemLifeCycleState, hfs])
          (by simp [statusFileSystemLifeCycleState, hfs, hne3])
          (by simp [statusFileSystemLifeCycleState, hfs, hne1, hne2])
        simpa [statusFileSystemLifeCycleState, hfs] using hres
    · intro e he
      unfold waitFileSystemAvailable
      rw [hskip, hk]
      have hres := waitForState_hit_refresh_error
        [LifeCycleStateCreating, LifeCycleStateUpdating]
        [LifeCycleStateAvailable] defaultNotFoundChecks
        (fun n => statusFileSystemLifeCycleState find (n + i)) nf2 k e
        (by simp [statusFileSystemLifeCycleState, he])
      simpa [statusFileSystemLifeCycleState, he] using hres
  · intro hpre hnf
    have hconds : ∀ j, j < i →
        (statusFileSystemLifeCycleState find j).err = none
        ∧ (∃ v, (statusFileSystemLifeCycleState find j).res = some v)
        ∧ (statusFileSystemLifeCycleState find j).state ∉ ([] : List String)
        ∧ (statusFileSystemLifeCycleState find j).state ∈
            [LifeCycleStateAvailable, LifeCycleStateDeleting] := by
      intro j hj
      obtain ⟨g, hg, hstate⟩ := hpre j hj
      rcases hstate with h | h <;>
        simp [statusFileSystemLifeCycleState, hg, h,
          LifeCycleStateAvailable, LifeCycleStateDeleting]
    obtain ⟨nf2, hskip⟩ := waitForState_skip
      [LifeCycleStateAvailable, LifeCycleStateDeleting] []
      defaultNotFoundChecks i (statusFileSystemLifeCycleState find) 0 fuel
      (le_of_lt hi) hconds
    obtain ⟨k, hk⟩ : ∃ k, fuel - i = k + 1 := ⟨fuel - i - 1, by omega⟩
    unfold waitFileSystemDeleted
    rw [hskip, hk]
    exact waitForState_hit_gone
      [LifeCycleStateAvailable, LifeCycleStateDeleting] defaultNotFoundChecks
      (fun n => statusFileSystemLifeCycleState find (n + i)) nf2 k
      (by simp [statusFileSystemLifeCycleState, hnf])
      (by simp [statusFileSystemLifeCycleState, hnf])

/-- Observation sequence used to witness C2: "creating", then
"available". -/
def c2FindW : Nat → FindResult Nat := fun n =>
  if n = 0 then FindResult.found ⟨"fs-1", "creating"⟩
  else if n = 1 then FindResult.found ⟨"fs-1", "available"⟩
  else FindResult.notFound

/-- Witness for C2: the wait returns the description observed in the
"available" state. -/
theorem C2_wait_file_system_witness :
    waitFileSystemAvailable c2FindW 5 =
      (some ⟨"fs-1", "available"⟩, none) :=
  (((C2_wait_file_system c2FindW 5 1 (by omega)).1
    (by
      intro j hj
      have hj0 : j = 0 := by omega
      subst hj0
      exact ⟨⟨"fs-1", "creating"⟩, rfl, Or.inl rfl⟩)).1
    ⟨"fs-1", "available"⟩ rfl).1 rfl

end TFAws
